import Mathlib

/-
Verification of the Equalizer coordination core against its specification.

The definitions below shallowly embed the relevant C++ source:
  * the visitor traversal `_accept` (src/lib/client/view.cpp, fabric Server),
  * the frame-update visitor (src/server/compoundUpdateDataVisitor.cpp),
  * View serialization (src/lib/client/view.cpp),
  * command handlers `_cmdCreateConfig` / `_cmdDestroyConfig`,
  * the Channel state machine (src/server/channel.h),
  * the View destructor (src/lib/client/view.cpp),
  * the compareAndSwap emulation (src/lib/base/compareAndSwap.h).
-/

namespace Equalizer

/-- Result type of a visitor callback, from visitorResult.h
(TRAVERSE_CONTINUE, TRAVERSE_PRUNE, TRAVERSE_TERMINATE). -/
inductive VisitorResult where
  | TRAVERSE_CONTINUE
  | TRAVERSE_PRUNE
  | TRAVERSE_TERMINATE
deriving DecidableEq, Repr

open VisitorResult

/-- A tree of entities, identified by natural-number ids, over which the
visitor framework traverses (resource tree / compound tree). -/
inductive Tree where
  | node (id : Nat) (children : List Tree)

/-- A visitor: the visitPre and visitPost callbacks, as functions of the
visited node's id (deterministic per node, as in the C++ virtual methods). -/
structure Visitor where
  visitPre : Nat → VisitorResult
  visitPost : Nat → VisitorResult

/-- Combination of the loop-carried result with one further non-TERMINATE
child result: the `case TRAVERSE_PRUNE: result = TRAVERSE_PRUNE` arm of the
child loop in `_accept`. -/
def combineLoop : VisitorResult → VisitorResult → VisitorResult
  | TRAVERSE_PRUNE, _ => TRAVERSE_PRUNE
  | _, r => r

mutual

/-- Embedding of `_accept` (view.cpp lines 244-287): run visitPre; on a
non-CONTINUE result return it at once; otherwise traverse the children,
aborting on TERMINATE and downgrading the level result on PRUNE; finally run
visitPost, whose TERMINATE/PRUNE override the accumulated result. The second
component is the visit trace: the ids on which visitPre was invoked, in
order. -/
def accept (v : Visitor) : Tree → VisitorResult × List Nat
  | .node i cs =>
    match v.visitPre i with
    | TRAVERSE_CONTINUE =>
      match acceptChildren v cs, v.visitPost i with
      | (TRAVERSE_TERMINATE, tr), _ => (TRAVERSE_TERMINATE, i :: tr)
      | (_, tr), TRAVERSE_TERMINATE => (TRAVERSE_TERMINATE, i :: tr)
      | (_, tr), TRAVERSE_PRUNE => (TRAVERSE_PRUNE, i :: tr)
      | (r, tr), TRAVERSE_CONTINUE => (r, i :: tr)
    | TRAVERSE_PRUNE => (TRAVERSE_PRUNE, [i])
    | TRAVERSE_TERMINATE => (TRAVERSE_TERMINATE, [i])

/-- Embedding of the child loop of `_accept`: each child's accept is run in
order; TERMINATE returns immediately (pending siblings untouched), PRUNE
downgrades the loop result, CONTINUE leaves it. -/
def acceptChildren (v : Visitor) : List Tree → VisitorResult × List Nat
  | [] => (TRAVERSE_CONTINUE, [])
  | t :: ts =>
    match accept v t with
    | (TRAVERSE_TERMINATE, tr) => (TRAVERSE_TERMINATE, tr)
    | (r, tr) =>
      match acceptChildren v ts with
      | (TRAVERSE_TERMINATE, tr2) => (TRAVERSE_TERMINATE, tr ++ tr2)
      | (r2, tr2) => (combineLoop r r2, tr ++ tr2)

end

lemma combineLoop_ne_term {r r2 : VisitorResult}
    (h : r ≠ TRAVERSE_TERMINATE) (h2 : r2 ≠ TRAVERSE_TERMINATE) :
    combineLoop r r2 ≠ TRAVERSE_TERMINATE := by
  cases r <;> cases r2 <;> simp_all [combineLoop]

lemma combineLoop_prune_left (r2 : VisitorResult) :
    combineLoop TRAVERSE_PRUNE r2 = TRAVERSE_PRUNE := rfl

lemma combineLoop_prune_right {r r2 : VisitorResult} (h2 : r2 = TRAVERSE_PRUNE) :
    combineLoop r r2 = TRAVERSE_PRUNE := by
  cases r <;> simp_all [combineLoop]

lemma accept_pre_prune {v : Visitor} {i : Nat} {cs : List Tree}
    (h : v.visitPre i = TRAVERSE_PRUNE) :
    accept v (.node i cs) = (TRAVERSE_PRUNE, [i]) := by
  simp [accept, h]

lemma accept_node_term {v : Visitor} {i : Nat} {cs : List Tree}
    (hpre : v.visitPre i = TRAVERSE_CONTINUE)
    (h : (acceptChildren v cs).1 = TRAVERSE_TERMINATE) :
    accept v (.node i cs) = (TRAVERSE_TERMINATE, i :: (acceptChildren v cs).2) := by
  rcases he : acceptChildren v cs with ⟨r, tr⟩
  rw [he] at h
  simp only at h
  subst h
  simp [accept, hpre, he]

lemma accept_node_continue {v : Visitor} {i : Nat} {cs : List Tree}
    (hpre : v.visitPre i = TRAVERSE_CONTINUE)
    (hpost : v.visitPost i = TRAVERSE_CONTINUE)
    (hne : (acceptChildren v cs).1 ≠ TRAVERSE_TERMINATE) :
    accept v (.node i cs) = ((acceptChildren v cs).1, i :: (acceptChildren v cs).2) := by
  rcases he : acceptChildren v cs with ⟨r, tr⟩
  rw [he] at hne
  simp only at hne
  cases r <;> simp_all [accept, hpre, hpost, he]

lemma acceptChildren_term_of_mem {v : Visitor} :
    ∀ (l : List Tree) (t : Tree) (r : List Tree),
      (∀ s ∈ l, (accept v s).1 ≠ TRAVERSE_TERMINATE) →
      (accept v t).1 = TRAVERSE_TERMINATE →
      acceptChildren v (l ++ t :: r) =
        (TRAVERSE_TERMINATE,
         ((l.map fun s => (accept v s).2).flatten ++ (accept v t).2))
  | [], t, r, _, ht => by
    rcases he : accept v t with ⟨rt, tr⟩
    rw [he] at ht
    simp only at ht
    subst ht
    simp [acceptChildren, he]
  | s :: l, t, r, hl, ht => by
    have hs : (accept v s).1 ≠ TRAVERSE_TERMINATE := hl s (by simp)
    have ih := acceptChildren_term_of_mem l t r (fun x hx => hl x (by simp [hx])) ht
    rcases he : accept v s with ⟨rs, trs⟩
    rw [he] at hs
    simp only at hs
    cases rs <;> simp_all [acceptChildren, he, ih, List.append_assoc]

lemma acceptChildren_no_term {v : Visitor} :
    ∀ (cs : List Tree), (∀ s ∈ cs, (accept v s).1 ≠ TRAVERSE_TERMINATE) →
      (acceptChildren v cs).1 ≠ TRAVERSE_TERMINATE ∧
      (acceptChildren v cs).2 = (cs.map fun s => (accept v s).2).flatten
  | [], _ => by simp [acceptChildren]
  | s :: cs, h => by
    have hs : (accept v s).1 ≠ TRAVERSE_TERMINATE := h s (by simp)
    have ih := acceptChildren_no_term cs (fun x hx => h x (by simp [hx]))
    rcases he : accept v s with ⟨rs, trs⟩
    rw [he] at hs
    simp only at hs
    rcases he2 : acceptChildren v cs with ⟨r2, tr2⟩
    rw [he2] at ih
    simp only at ih
    obtain ⟨ih1, ih2⟩ := ih
    have hcomb := combineLoop_ne_term hs ih1
    cases rs <;> cases r2 <;> simp_all [acceptChildren, he, he2]

lemma acceptChildren_prune {v : Visitor} :
    ∀ (cs : List Tree), (∀ s ∈ cs, (accept v s).1 ≠ TRAVERSE_TERMINATE) →
      (∃ s ∈ cs, (accept v s).1 = TRAVERSE_PRUNE) →
      (acceptChildren v cs).1 = TRAVERSE_PRUNE
  | [], _, hex => by simp at hex
  | s :: cs, h, hex => by
    have hs : (accept v s).1 ≠ TRAVERSE_TERMINATE := h s (by simp)
    have hrest := acceptChildren_no_term cs (fun x hx => h x (by simp [hx]))
    rcases he : accept v s with ⟨rs, trs⟩
    rw [he] at hs
    simp only at hs
    rcases he2 : acceptChildren v cs with ⟨r2, tr2⟩
    rw [he2] at hrest
    simp only at hrest
    rcases hex with ⟨x, hx, hpx⟩
    rcases List.mem_cons.mp hx with hx | hx
    · subst hx
      rw [he] at hpx
      simp only at hpx
      subst hpx
      cases r2 <;> simp_all [acceptChildren, he, he2, combineLoop]
    · have h2 : r2 = TRAVERSE_PRUNE := by
        have := acceptChildren_prune cs (fun y hy => h y (by simp [hy])) ⟨x, hx, hpx⟩
        rw [he2] at this
        exact this
      subst h2
      cases rs <;> simp_all [acceptChildren, he, he2, combineLoop]

/-- A traversal context frame: the id of an enclosing node, the sibling
subtrees already traversed to its left, and the sibling subtrees still
pending to its right. -/
abbrev TraversalFrame := Nat × List Tree × List Tree

/-- Rebuild the tree from a subtree and its stack of enclosing frames
(innermost frame first). -/
def plug : Tree → List TraversalFrame → Tree
  | t, [] => t
  | t, fr :: ctx => plug (.node fr.1 (fr.2.1 ++ t :: fr.2.2)) ctx

/-- The visit trace an aborted traversal leaves behind: at each enclosing
level, the level's own id, the traces of the already-traversed left siblings,
and then the trace coming up from below; the pending right siblings
contribute nothing. -/
def termTrace (v : Visitor) : List TraversalFrame → List Nat → List Nat
  | [], tr => tr
  | fr :: ctx, tr =>
    termTrace v ctx (fr.1 :: ((fr.2.1.map fun s => (accept v s).2).flatten ++ tr))

/-- C1: for every tree and every visitor, if any node's visitPre, child
accept, or visitPost call returns TERMINATE during a traversal, the enclosing
accept() call returns TERMINATE immediately and no sibling subtree still
pending at any enclosing level is visited afterwards. Formally: if the
traversal reaches subtree t (each enclosing frame's visitPre returned
CONTINUE and no left sibling terminated) and t's accept returns TERMINATE,
then the accept of the whole tree returns TERMINATE with a visit trace that
contains only the enclosing ids, the left siblings' traces, and t's trace —
every pending right sibling at every enclosing level is absent. -/
theorem terminate_aborts_traversal (v : Visitor) (t : Tree)
    (ctx : List TraversalFrame)
    (ht : (accept v t).1 = TRAVERSE_TERMINATE)
    (hctx : ∀ fr ∈ ctx, v.visitPre fr.1 = TRAVERSE_CONTINUE ∧
      ∀ s ∈ fr.2.1, (accept v s).1 ≠ TRAVERSE_TERMINATE) :
    accept v (plug t ctx) = (TRAVERSE_TERMINATE, termTrace v ctx (accept v t).2) := by
  induction ctx generalizing t with
  | nil =>
    simp only [plug, termTrace]
    exact Prod.ext ht rfl
  | cons fr ctx ih =>
    obtain ⟨hpre, hl⟩ := hctx fr (by simp)
    have hch := acceptChildren_term_of_mem fr.2.1 t fr.2.2 hl ht
    have hacc : accept v (.node fr.1 (fr.2.1 ++ t :: fr.2.2)) =
        (TRAVERSE_TERMINATE,
         fr.1 :: ((fr.2.1.map fun s => (accept v s).2).flatten ++ (accept v t).2)) := by
      rw [accept_node_term hpre (by rw [hch]), hch]
    have := ih (.node fr.1 (fr.2.1 ++ t :: fr.2.2)) (by rw [hacc])
      (fun x hx => hctx x (by simp [hx]))
    rw [plug, this, hacc, termTrace]

/-- Witness visitor for the TERMINATE law: terminates at node 2. -/
def termV : Visitor :=
  { visitPre := fun i => if i = 2 then TRAVERSE_TERMINATE else TRAVERSE_CONTINUE,
    visitPost := fun _ => TRAVERSE_CONTINUE }

/-- Witness for C1 at a concrete tree node 0 with children 1, 2, 3, where
node 2 terminates: the traversal returns TERMINATE and node 3 is unvisited. -/
theorem terminate_aborts_traversal_witness :
    accept termV (plug (.node 2 []) [(0, [Tree.node 1 []], [Tree.node 3 []])]) =
      (TRAVERSE_TERMINATE, [0, 1, 2]) := by
  have h := terminate_aborts_traversal termV (.node 2 [])
    [(0, [Tree.node 1 []], [Tree.node 3 []])]
    (by simp [accept, termV])
    (by simp [accept, acceptChildren, termV])
  rw [h]
  simp [termTrace, accept, acceptChildren, termV]

/-- C2: a PRUNE result from one child's accept (here: the child's visitPre
prunes) skips that child's descendants — its trace is just the child itself —
but the remaining sibling children are still visited in order, and once any
child at a level returns PRUNE that level's own return value is downgraded
from CONTINUE to PRUNE even if no other prune occurred; unlike TERMINATE,
PRUNE aborts nothing: every sibling's full trace still appears. -/
theorem prune_skips_one_level (v : Visitor) (i c : Nat) (l r cs : List Tree)
    (hpre : v.visitPre i = TRAVERSE_CONTINUE)
    (hpost : v.visitPost i = TRAVERSE_CONTINUE)
    (hc : v.visitPre c = TRAVERSE_PRUNE)
    (hl : ∀ s ∈ l, (accept v s).1 ≠ TRAVERSE_TERMINATE)
    (hr : ∀ s ∈ r, (accept v s).1 ≠ TRAVERSE_TERMINATE) :
    accept v (.node c cs) = (TRAVERSE_PRUNE, [c]) ∧
    accept v (.node i (l ++ .node c cs :: r)) =
      (TRAVERSE_PRUNE,
       i :: ((l.map fun s => (accept v s).2).flatten ++
             c :: (r.map fun s => (accept v s).2).flatten)) := by
  have h1 : accept v (.node c cs) = (TRAVERSE_PRUNE, [c]) := accept_pre_prune hc
  refine ⟨h1, ?_⟩
  have hall : ∀ s ∈ l ++ Tree.node c cs :: r,
      (accept v s).1 ≠ TRAVERSE_TERMINATE := by
    intro s hs
    rcases List.mem_append.mp hs with hs | hs
    · exact hl s hs
    · rcases List.mem_cons.mp hs with hs | hs
      · subst hs
        rw [h1]
        simp
      · exact hr s hs
  have hnt := acceptChildren_no_term (l ++ Tree.node c cs :: r) hall
  have hp := acceptChildren_prune (l ++ Tree.node c cs :: r) hall
    ⟨Tree.node c cs, by simp, by rw [h1]⟩
  rw [accept_node_continue hpre hpost (by rw [hp]; simp), hp, hnt.2]
  simp [h1]

/-- Witness visitor for the PRUNE law: prunes at node 2. -/
def pruneV : Visitor :=
  { visitPre := fun i => if i = 2 then TRAVERSE_PRUNE else TRAVERSE_CONTINUE,
    visitPost := fun _ => TRAVERSE_CONTINUE }

/-- Witness for C2 at the concrete tree node 0 with children 1, 2, 3, where
node 2 prunes and has a child 9: node 9 is skipped, node 3 is still visited,
and the whole accept returns PRUNE. -/
theorem prune_skips_one_level_witness :
    accept pruneV (.node 2 [.node 9 []]) = (TRAVERSE_PRUNE, [2]) ∧
    accept pruneV (.node 0 ([Tree.node 1 []] ++ .node 2 [.node 9 []] :: [Tree.node 3 []])) =
      (TRAVERSE_PRUNE, [0, 1, 2, 3]) := by
  have h := prune_skips_one_level pruneV 0 2
    [Tree.node 1 []] [Tree.node 3 []] [Tree.node 9 []]
    (by simp [pruneV]) (by simp [pruneV]) (by simp [pruneV])
    (by simp [accept, acceptChildren, pruneV])
    (by simp [accept, acceptChildren, pruneV])
  refine ⟨h.1, ?_⟩
  rw [h.2]
  simp [accept, acceptChildren, pruneV]

/-- TASK_DRAW membership and activity of a compound, plus the channel it
references, as queried by CompoundUpdateDataVisitor (testInheritTask,
isActive, getChannel). The inherited-draw flag is the value of
testInheritTask(eq::TASK_DRAW) after updateInheritData has run. -/
structure Compound where
  cid : Nat
  inheritDraw : Bool
  active : Bool
  channel : Nat
deriving DecidableEq, Repr

/-- State of the channels during the frame-update pass: for each channel id
the id of its last-draw compound, if any (Channel::_lastDrawCompound). -/
def ChannelState := Nat → Option Nat

/-- Embedding of CompoundUpdateDataVisitor::_updateDrawFinish (lines 42-50):
if the compound's inherited task set excludes DRAW or the compound is
inactive, return with no effect; otherwise the referenced channel records the
compound via setLastDrawCompound. -/
def updateDrawFinish (st : ChannelState) (c : Compound) : ChannelState :=
  if !c.inheritDraw || !c.active then st
  else fun ch => if ch = c.channel then some c.cid else st ch

/-- Events observable during the frame-update pass, in the order the visitor
emits them: the listener notification, the inherited-data computation, and
the draw-finish bookkeeping call. -/
inductive UpdateEvent where
  | firePre (cid frame : Nat)
  | inheritData (cid frame : Nat)
  | drawFinish (cid : Nat)
deriving DecidableEq, Repr

/-- Embedding of CompoundUpdateDataVisitor::visit (lines 25-39): fire
fireUpdatePre with the frame number, compute inherited data, then run the
draw-finish bookkeeping, and return TRAVERSE_CONTINUE. The event list records
the three calls in their source order. -/
def visitCompound (frame : Nat) (st : ChannelState) (c : Compound) :
    VisitorResult × ChannelState × List UpdateEvent :=
  (TRAVERSE_CONTINUE, updateDrawFinish st c,
   [.firePre c.cid frame, .inheritData c.cid frame, .drawFinish c.cid])

/-- The tree of compounds (task decomposition tree). -/
inductive CompoundTree where
  | node (c : Compound) (children : List CompoundTree)

mutual

/-- Modelled from the spec: the frame-update pass walks the compound tree
"top-down ... per compound in a single combined pass", visiting parents
before children (pre-order); compound.cpp's accept is not part of the
sample, so the visit order is taken from the spec's pre-order description. -/
def preorder : CompoundTree → List Compound
  | .node c cs => c :: preorderList cs

/-- Pre-order visit of a forest of compound subtrees, left to right. -/
def preorderList : List CompoundTree → List Compound
  | [] => []
  | t :: ts => preorder t ++ preorderList ts

end

mutual

/-- Number of occurrences of a compound in a compound tree. -/
def occurs (c : Compound) : CompoundTree → Nat
  | .node d cs => (if d = c then 1 else 0) + occursList c cs

/-- Number of occurrences of a compound in a forest. -/
def occursList (c : Compound) : List CompoundTree → Nat
  | [] => 0
  | t :: ts => occurs c t + occursList c ts

end

/-- Run the update visitor over the compounds in visit order, threading the
channel state and concatenating the emitted events. -/
def runVisits (frame : Nat) (st : ChannelState) : List Compound → ChannelState × List UpdateEvent
  | [] => (st, [])
  | c :: cs =>
    let stepped := visitCompound frame st c
    let rest := runVisits frame stepped.2.1 cs
    (rest.1, stepped.2.2 ++ rest.2)

lemma runVisits_lastDraw (frame ch : Nat) :
    ∀ (cs : List Compound) (st : ChannelState),
      (runVisits frame st cs).1 ch =
        (cs.filter fun c => c.inheritDraw && c.active && (c.channel == ch)).foldl
          (fun _ c => some c.cid) (st ch)
  | [], _ => rfl
  | c :: cs, st => by
    have ih := runVisits_lastDraw frame ch cs (updateDrawFinish st c)
    by_cases hp : (c.inheritDraw && c.active && (c.channel == ch)) = true
    · have hdf : updateDrawFinish st c ch = some c.cid := by
        simp only [Bool.and_eq_true, beq_iff_eq] at hp
        obtain ⟨⟨h1, h2⟩, h3⟩ := hp
        simp [updateDrawFinish, h1, h2, h3]
      simp [runVisits, visitCompound, ih, hdf, List.filter_cons, hp]
    · have hdf : updateDrawFinish st c ch = st ch := by
        by_cases hda : (c.inheritDraw && c.active) = true
        · simp only [Bool.and_eq_true] at hda
          have hch : ch ≠ c.channel := by
            intro h
            exact hp (by simp [hda.1, hda.2, h])
          simp [updateDrawFinish, hda.1, hda.2, hch]
        · simp only [Bool.and_eq_true, not_and_or, Bool.not_eq_true] at hda
          rcases hda with h | h <;> simp [updateDrawFinish, h]
      simp [runVisits, visitCompound, ih, hdf, List.filter_cons, hp]

/-- C3: during the frame-update pass, every active compound whose inherited
task set includes DRAW makes its referenced channel record it as last-draw
participant; since compounds are visited in tree order, after the pass a
channel's last-draw compound is the last such active DRAW compound visited —
folding the recording over the visit-ordered matches — or its old value when
no such compound references the channel. -/
theorem lastDrawCompound_after_pass (frame : Nat) (st : ChannelState)
    (t : CompoundTree) (ch : Nat) :
    (runVisits frame st (preorder t)).1 ch =
      ((preorder t).filter fun c => c.inheritDraw && c.active && (c.channel == ch)).foldl
        (fun _ c => some c.cid) (st ch) :=
  runVisits_lastDraw frame ch (preorder t) st

/-- Channel state in which no channel has a last-draw compound yet. -/
def emptyChannels : ChannelState := fun _ => none

/-- C4: a compound that is inactive or whose inherited task set excludes DRAW
is skipped by the draw-finish bookkeeping with no error: the visit still
returns TRAVERSE_CONTINUE and the channel state — in particular the
referenced channel's last-draw field — is left unchanged. -/
theorem inactive_compound_skipped (frame : Nat) (st : ChannelState) (c : Compound)
    (h : c.inheritDraw = false ∨ c.active = false) :
    (visitCompound frame st c).1 = TRAVERSE_CONTINUE ∧
    (visitCompound frame st c).2.1 = st := by
  refine ⟨rfl, ?_⟩
  rcases h with h | h <;> simp [visitCompound, updateDrawFinish, h]

/-- Witness for C4: a non-DRAW compound leaves the empty channel state
untouched and its visit returns CONTINUE. -/
theorem inactive_compound_skipped_witness :
    (visitCompound 7 emptyChannels
      { cid := 1, inheritDraw := false, active := true, channel := 0 }).1 =
        TRAVERSE_CONTINUE ∧
    (visitCompound 7 emptyChannels
      { cid := 1, inheritDraw := false, active := true, channel := 0 }).2.1 =
        emptyChannels :=
  inactive_compound_skipped 7 emptyChannels
    { cid := 1, inheritDraw := false, active := true, channel := 0 } (Or.inl rfl)

mutual

theorem preorder_count (c : Compound) :
    ∀ (t : CompoundTree), (preorder t).count c = occurs c t
  | .node d cs => by
    have h := preorderList_count c cs
    by_cases hd : d = c <;>
      simp [preorder, occurs, List.count_cons, h, hd, Nat.add_comm]

theorem preorderList_count (c : Compound) :
    ∀ (ts : List CompoundTree), (preorderList ts).count c = occursList c ts
  | [] => rfl
  | t :: ts => by
    rw [preorderList, List.count_append, preorder_count c t,
      preorderList_count c ts, occursList]

end

lemma runVisits_events (frame : Nat) :
    ∀ (cs : List Compound) (st : ChannelState),
      (runVisits frame st cs).2 = cs.flatMap
        (fun d => [.firePre d.cid frame, .inheritData d.cid frame, .drawFinish d.cid])
  | [], _ => rfl
  | c :: cs, st => by
    simp [runVisits, visitCompound, runVisits_events frame cs (updateDrawFinish st c)]

/-- C6: every visit of the frame-update pass performs, in this fixed order,
the listener notification with the frame number, then the inherited-data
computation, then the draw-finish bookkeeping, and returns CONTINUE; hence
the pass's event log is the per-compound triple of calls concatenated over
the visit order, and each compound of the tree is processed exactly once
(its multiplicity in the visit order equals its multiplicity in the tree). -/
theorem update_pass_order_and_once (frame : Nat) (st : ChannelState)
    (t : CompoundTree) (c : Compound) :
    (visitCompound frame st c).1 = TRAVERSE_CONTINUE ∧
    (visitCompound frame st c).2.2 =
      [.firePre c.cid frame, .inheritData c.cid frame, .drawFinish c.cid] ∧
    (runVisits frame st (preorder t)).2 = (preorder t).flatMap
      (fun d => [.firePre d.cid frame, .inheritData d.cid frame, .drawFinish d.cid]) ∧
    (preorder t).count c = occurs c t :=
  ⟨rfl, rfl, runVisits_events frame (preorder t) st, preorder_count c t⟩

/-- Serializable state of a View: the Frustum base-class data and the
viewport (View::_viewport). Field values are abstracted as naturals. -/
structure ViewData where
  frustum : Nat
  viewport : Nat
deriving DecidableEq, Repr

/-- Modelled from the spec: the dirty bit guarding the Frustum base-class
payload (view.h with the dirty-bit enum is not in the sample; the spec's wire
format only requires a bit distinct from the viewport's). -/
def DIRTY_FRUSTUM : Nat := 1

/-- Modelled from the spec: the View::DIRTY_VIEWPORT bit (view.h with the
enum is not in the sample); any single bit distinct from DIRTY_FRUSTUM. -/
def DIRTY_VIEWPORT : Nat := 2

/-- Modelled from the spec: Frustum::serialize writes the frustum payload to
the stream iff its dirty bit is set in the mask (dirty-bit-gated payload, per
the replicated-object wire format). -/
def frustumSerialize (st : ViewData) (dirtyBits : Nat) : List Nat :=
  if dirtyBits &&& DIRTY_FRUSTUM ≠ 0 then [st.frustum] else []

/-- Embedding of View::serialize (view.cpp lines 25-30): first the Frustum
base-class serialization, then the viewport iff DIRTY_VIEWPORT is set. -/
def serialize (st : ViewData) (dirtyBits : Nat) : List Nat :=
  frustumSerialize st dirtyBits ++
    (if dirtyBits &&& DIRTY_VIEWPORT ≠ 0 then [st.viewport] else [])

/-- Modelled from the spec: Frustum::deserialize reads the frustum payload
iff its dirty bit is set, consuming it from the stream. -/
def frustumDeserialize (st : ViewData) (dirtyBits : Nat) (is : List Nat) :
    ViewData × List Nat :=
  if dirtyBits &&& DIRTY_FRUSTUM ≠ 0 then
    match is with
    | x :: rest => ({ st with frustum := x }, rest)
    | [] => (st, [])
  else (st, is)

/-- Embedding of View::deserialize (view.cpp lines 32-37): Frustum
base-class deserialization first, then the viewport iff DIRTY_VIEWPORT is
set in the mask. -/
def deserialize (st : ViewData) (dirtyBits : Nat) (is : List Nat) :
    ViewData × List Nat :=
  let fr := frustumDeserialize st dirtyBits is
  if dirtyBits &&& DIRTY_VIEWPORT ≠ 0 then
    match fr.2 with
    | x :: rest => ({ fr.1 with viewport := x }, rest)
    | [] => (fr.1, [])
  else fr

/-- C5: View::serialize writes the viewport iff DIRTY_VIEWPORT is set in the
mask, and View::deserialize with the same mask reads back exactly the fields
serialize wrote: the round trip consumes the whole payload and restores the
viewport into any receiver state iff the mask contains DIRTY_VIEWPORT, while
a mask without it produces a payload carrying the frustum part only, the
viewport field absent. -/
theorem view_serialize_roundtrip (st st0 : ViewData) (mask : Nat) :
    deserialize st0 mask (serialize st mask) =
      ({ frustum := if mask &&& DIRTY_FRUSTUM ≠ 0 then st.frustum else st0.frustum,
         viewport := if mask &&& DIRTY_VIEWPORT ≠ 0 then st.viewport else st0.viewport }, []) ∧
    (mask &&& DIRTY_VIEWPORT = 0 → serialize st mask = frustumSerialize st mask) ∧
    (mask &&& DIRTY_VIEWPORT ≠ 0 →
      serialize st mask = frustumSerialize st mask ++ [st.viewport]) := by
  refine ⟨?_, ?_, ?_⟩
  · by_cases h1 : mask &&& DIRTY_FRUSTUM = 0 <;>
      by_cases h2 : mask &&& DIRTY_VIEWPORT = 0 <;>
        simp [serialize, deserialize, frustumSerialize, frustumDeserialize, h1, h2]
  · intro h2
    simp [serialize, h2]
  · intro h2
    simp [serialize, h2]

/-- Witness for C5: with only DIRTY_VIEWPORT set, the payload is exactly the
viewport, and a mask of 0 yields an empty payload. -/
theorem view_serialize_roundtrip_witness :
    serialize { frustum := 10, viewport := 20 } DIRTY_VIEWPORT =
      frustumSerialize { frustum := 10, viewport := 20 } DIRTY_VIEWPORT ++ [20] :=
  (view_serialize_roundtrip { frustum := 10, viewport := 20 }
    { frustum := 0, viewport := 0 } DIRTY_VIEWPORT).2.2 (by decide)

/-- Sentinel for an absent request id (EQ_UNDEFINED_UINT32 = 0xFFFFFFFF). -/
def EQ_UNDEFINED_UINT32 : Nat := 4294967295

/-- Fields of ServerCreateConfigPacket / ServerDestroyConfigPacket relevant
to the reply decision: the optional request id and the config identity. -/
structure ConfigCommandPacket where
  requestID : Nat
  configID : Nat
deriving DecidableEq, Repr

/-- A reply packet; modelled from the spec: the reply packet constructors
(configPackets.h is not in the sample) echo the originating request id. -/
structure ReplyPacket where
  requestID : Nat
deriving DecidableEq, Repr

/-- Embedding of the reply decision of Server::_cmdCreateConfig (view.cpp
lines 304-322): a reply is sent to the originating node iff the packet's
requestID differs from EQ_UNDEFINED_UINT32, built from the packet. -/
def cmdCreateConfig (packet : ConfigCommandPacket) : Option ReplyPacket :=
  if packet.requestID ≠ EQ_UNDEFINED_UINT32 then
    some { requestID := packet.requestID }
  else
    none

/-- Embedding of the reply decision of Server::_cmdDestroyConfig (view.cpp
lines 324-354): after unmapping and releasing the config, a reply is sent
iff the packet's requestID differs from EQ_UNDEFINED_UINT32. -/
def cmdDestroyConfig (packet : ConfigCommandPacket) : Option ReplyPacket :=
  if packet.requestID ≠ EQ_UNDEFINED_UINT32 then
    some { requestID := packet.requestID }
  else
    none

/-- C7: both the create-config and the destroy-config handler send a reply
iff the command's request id is present (not the undefined sentinel), and any
reply sent echoes the originating packet's request id; a command without a
request id produces no reply. -/
theorem config_command_reply (packet : ConfigCommandPacket) :
    ((cmdCreateConfig packet).isSome ↔ packet.requestID ≠ EQ_UNDEFINED_UINT32) ∧
    ((cmdDestroyConfig packet).isSome ↔ packet.requestID ≠ EQ_UNDEFINED_UINT32) ∧
    (∀ reply, cmdCreateConfig packet = some reply →
      reply.requestID = packet.requestID) ∧
    (∀ reply, cmdDestroyConfig packet = some reply →
      reply.requestID = packet.requestID) := by
  by_cases h : packet.requestID = EQ_UNDEFINED_UINT32
  · simp [cmdCreateConfig, cmdDestroyConfig, h]
  · refine ⟨by simp [cmdCreateConfig, h], by simp [cmdDestroyConfig, h], ?_, ?_⟩ <;>
      · intro reply h1
        simp only [cmdCreateConfig, cmdDestroyConfig, if_pos h, Option.some.injEq] at h1
        rw [← h1]

/-- Witness for C7: a create-config command with request id 5 is answered by
a reply echoing 5. -/
theorem config_command_reply_witness :
    ({ requestID := 5 } : ReplyPacket).requestID =
      ({ requestID := 5, configID := 7 } : ConfigCommandPacket).requestID :=
  (config_command_reply { requestID := 5, configID := 7 }).2.2.1
    { requestID := 5 } (by decide)

/-- Channel::State (channel.h lines 44-52). -/
inductive ChannelRunState where
  | STATE_STOPPED
  | STATE_INITIALIZING
  | STATE_INIT_FAILED
  | STATE_RUNNING
  | STATE_STOPPING
  | STATE_STOP_FAILED
deriving DecidableEq, Repr

open ChannelRunState

/-- Modelled from the spec: Channel::startConfigInit "sets state to
INITIALIZING, sends an init command to every remote instance, and returns
without blocking" (channel.cpp is not in the sample); the local effect is
setting the monitored state, whatever it was before. -/
def startConfigInit (_s : ChannelRunState) : ChannelRunState :=
  STATE_INITIALIZING

/-- Modelled from the spec: Channel::syncConfigInit blocks on the monitored
state until it leaves INITIALIZING and "returns true iff eventual state is
RUNNING" (channel.cpp is not in the sample). The blocking wait is modelled by
taking the settled state — the first value of the monitor different from
INITIALIZING — as input; the call reads the state and does not change it. -/
def syncConfigInit (settled : ChannelRunState) : Bool × ChannelRunState :=
  (settled = STATE_RUNNING, settled)

/-- C8: startConfigInit transitions the monitored state to INITIALIZING from
any state; once the state has settled out of INITIALIZING (to RUNNING or
INIT_FAILED, the only successors per the channel.h state comments),
syncConfigInit returns true iff the state is RUNNING and false iff it is
INIT_FAILED; and a second syncConfigInit without an intervening
startConfigInit sees the same state and returns the same result. -/
theorem config_init_state_machine (s settled : ChannelRunState)
    (h : settled = STATE_RUNNING ∨ settled = STATE_INIT_FAILED) :
    startConfigInit s = STATE_INITIALIZING ∧
    ((syncConfigInit settled).1 = true ↔ settled = STATE_RUNNING) ∧
    ((syncConfigInit settled).1 = false ↔ settled = STATE_INIT_FAILED) ∧
    syncConfigInit (syncConfigInit settled).2 = syncConfigInit settled := by
  refine ⟨rfl, by simp [syncConfigInit], ?_, rfl⟩
  rcases h with h | h <;> simp [syncConfigInit, h]

/-- Witness for C8: a channel that settles in STATE_RUNNING synchronizes
with result true, twice. -/
theorem config_init_state_machine_witness :
    startConfigInit STATE_STOPPED = STATE_INITIALIZING ∧
    ((syncConfigInit STATE_RUNNING).1 = true ↔ STATE_RUNNING = STATE_RUNNING) ∧
    ((syncConfigInit STATE_RUNNING).1 = false ↔ STATE_RUNNING = STATE_INIT_FAILED) ∧
    syncConfigInit (syncConfigInit STATE_RUNNING).2 = syncConfigInit STATE_RUNNING :=
  config_init_state_machine STATE_STOPPED STATE_RUNNING (Or.inl rfl)

/-- Observable state of an eq::View for destruction purposes: the non-owning
back-pointer to the owning Layout (View::_layout), none meaning null. -/
structure ViewObj where
  layout : Option Nat
deriving DecidableEq, Repr

/-- Message of the destructor's checked invariant. -/
def layoutAssertMessage : String := "EQASSERT !_layout"

/-- Embedding of View::~View (view.cpp lines 19-23): EQASSERT( !_layout )
fails when the back-pointer is still set; otherwise the destructor clears the
pointer and completes. -/
def viewDtor (v : ViewObj) : Except String ViewObj :=
  match v.layout with
  | some _ => .error layoutAssertMessage
  | none => .ok { layout := none }

/-- C9: destruction of a View succeeds exactly when its layout back-pointer
is null at that moment; a View destroyed with the back-pointer still set
trips the assertion instead of being silently accepted. -/
theorem view_destruction_checks_layout (v : ViewObj) :
    (viewDtor v = .ok { layout := none } ↔ v.layout = none) ∧
    (v.layout ≠ none → viewDtor v = .error layoutAssertMessage) := by
  constructor
  · cases hv : v.layout <;> simp [viewDtor, hv]
  · intro h
    cases hv : v.layout with
    | none => exact absurd hv h
    | some l => simp [viewDtor, hv]

/-- Witness for C9: a View whose layout pointer still references layout 3
fails the destruction assertion. -/
theorem view_destruction_checks_layout_witness :
    viewDtor { layout := some 3 } = .error layoutAssertMessage :=
  (view_destruction_checks_layout { layout := some 3 }).2 (by decide)

/-- Embedding of the lock-guarded emulation branch of compareAndSwap
(compareAndSwap.h lines 68-81): under the spin lock, if the current cell
value equals old, store nw and return true, else leave the cell and return
false. The pair returned is (result, value of *addr after the call). -/
def compareAndSwap (addr old nw : Nat) : Bool × Nat :=
  if addr = old then (true, nw) else (false, addr)

/-- C10: compareAndSwap returns true and stores nw iff the current value
equals old; otherwise it returns false and the stored value is unchanged. -/
theorem compareAndSwap_spec (addr old nw : Nat) :
    ((compareAndSwap addr old nw).1 = true ↔ addr = old) ∧
    ((compareAndSwap addr old nw).1 = true → (compareAndSwap addr old nw).2 = nw) ∧
    ((compareAndSwap addr old nw).1 = false → (compareAndSwap addr old nw).2 = addr) := by
  by_cases h : addr = old <;> simp [compareAndSwap, h]

/-- Witness for C10: a successful swap at value 3 stores 7. -/
theorem compareAndSwap_spec_witness : (compareAndSwap 3 3 7).2 = 7 :=
  (compareAndSwap_spec 3 3 7).2.1 (by decide)

end Equalizer
